import Mathlib

/-!
Verification of core components of the registry-sync container image
replication service: tag filtering, retry with exponential backoff and
retryable-error classification, registry client manifest and blob
operations, the replication engine, and the scheduler.

The Go code is shallowly embedded: pure helpers become Lean functions,
HTTP interactions are parameterized by explicit response oracles, machine
integers become Nat or Int, and Go error values become an explicit model
capturing exactly the observations the code makes of them.
-/

namespace RegistrySync

/-! ## Go string primitives -/

/-- Containment of one character list in another, with the semantics of Go
strings.Contains: the empty needle is contained in every string. -/
def containsSub : List Char → List Char → Bool
  | [], needle => needle.isEmpty
  | c :: t, needle => needle.isPrefixOf (c :: t) || containsSub t needle

/-- Go strings.Contains on strings. -/
def strContains (hay needle : String) : Bool :=
  containsSub hay.toList needle.toList

/-- Go strings.HasPrefix, via character lists so that evaluation is
kernel-reducible. -/
def strHasPre (s pre : String) : Bool :=
  pre.toList.isPrefixOf s.toList

/-- Go strings.ToLower, character by character (the messages classified by
the retry layer are ASCII, where Char.toLower agrees with Go). -/
def strToLower (s : String) : String :=
  ⟨s.data.map Char.toLower⟩

/-! ## Error model and retryable classification (pkg/sync/retry.go) -/

/-- Model of a Go error value, capturing exactly the observations made by
isRetryableError in pkg/sync/retry.go: the errors.Is checks against
context.Canceled and context.DeadlineExceeded, the errors.As checks against
net.Error (timeout and temporary capabilities, in that order) and against
net.DNSError (temporary capability), the errors.Is checks against the three
syscall errno values, and the message returned by the Error method. -/
structure GoErr where
  isCtxCanceled : Bool := false
  isCtxDeadline : Bool := false
  netErr : Option (Bool × Bool) := none
  isConnRefused : Bool := false
  isConnReset : Bool := false
  isTimedOut : Bool := false
  dnsErr : Option Bool := none
  msg : String := ""
deriving DecidableEq, Repr

/-- The textual patterns scanned by isRetryableError, in source order. -/
def retryablePatterns : List String :=
  ["timeout", "temporary", "connection reset", "connection refused",
   "too many requests", "rate limit", "service unavailable", "bad gateway",
   "gateway timeout"]

/-- Embedding of isRetryableError (pkg/sync/retry.go lines 80 to 151).
The checks are transcribed in source order: nil error, context errors,
net.Error, the three connection errno values, DNS errors, the lowercased
message scanned for textual patterns, then the status-code block guarded by
the literal text "status code", and the fail-closed default. -/
def isRetryableError : Option GoErr → Bool
  | none => false
  | some e =>
    if e.isCtxCanceled || e.isCtxDeadline then false
    else
      match e.netErr with
      | some (tmo, tmp) => tmo || tmp
      | none =>
        if e.isConnRefused || e.isConnReset || e.isTimedOut then true
        else
          match e.dnsErr with
          | some tmp => tmp
          | none =>
            let m := strToLower e.msg
            if retryablePatterns.any (fun p => strContains m p) then true
            else if strContains m "status code" then
              if strContains m "429" || strContains m "500" || strContains m "502" ||
                  strContains m "503" || strContains m "504" then true
              else if strContains m "400" || strContains m "401" ||
                  strContains m "403" || strContains m "404" then false
              else false
            else false

instance {ε α : Type} [DecidableEq ε] [DecidableEq α] : DecidableEq (Except ε α) :=
  fun x y =>
  match x, y with
  | .error a, .error b =>
    if h : a = b then isTrue (by rw [h])
    else isFalse (fun hh => by cases hh; exact h rfl)
  | .ok a, .ok b =>
    if h : a = b then isTrue (by rw [h])
    else isFalse (fun hh => by cases hh; exact h rfl)
  | .error _, .ok _ => isFalse (fun hh => by cases hh)
  | .ok _, .error _ => isFalse (fun hh => by cases hh)

/-- A plain string error: every structured observation is negative and only
the message is visible, as for errors built with fmt.Errorf. -/
def GoErr.plain (s : String) : GoErr := { msg := s }

/-- A plain string error has no structured capabilities. -/
def GoErr.isPlain (e : GoErr) : Prop :=
  e.isCtxCanceled = false ∧ e.isCtxDeadline = false ∧ e.netErr = none ∧
  e.isConnRefused = false ∧ e.isConnReset = false ∧ e.isTimedOut = false ∧
  e.dnsErr = none

/-! ## C4: retryable-error classification -/

/-! ## Retry with exponential backoff (pkg/sync/retry.go lines 34 to 77) -/

/-- Retry policy, mirroring sync.RetryConfig. Durations are in abstract
time units (Go uses time.Duration nanoseconds). -/
structure RetryConfig where
  maxAttempts : Nat
  initialInterval : Nat
  maxInterval : Nat
deriving DecidableEq, Repr

/-- Result classification of RetryWithBackoff: success, a wrapped
non-retryable error, or the max-retries-exceeded error with the last
observed failure (none only in the degenerate zero-attempt case). -/
inductive RetryOutcome
  | success
  | nonRetryable (e : GoErr)
  | exhausted (lastErr : Option GoErr)
deriving DecidableEq, Repr

/-- Observable behavior of one RetryWithBackoff run: its outcome, the
number of the attempt it stopped on, and the list of back-off sleeps
performed between attempts, in order. -/
structure RetryTrace where
  outcome : RetryOutcome
  attemptsMade : Nat
  sleeps : List Nat
deriving DecidableEq, Repr

/-- The retry loop of RetryWithBackoff. The fuel argument counts the
remaining loop iterations (the Go for-loop runs attempt = 1 .. maxAttempts);
each iteration evaluates the operation, classifies a failure, and either
stops, or sleeps the current backoff and doubles it, capping the doubled
value at maxInterval, exactly as in the source. Context cancellation during
a sleep is not modelled; the claims under verification do not involve it. -/
def retryAux (fn : Nat → Option GoErr) (maxAttempts maxInterval : Nat) :
    Nat → Nat → Nat → List Nat → RetryTrace
  | 0, _, _, sleeps => ⟨.exhausted none, 0, sleeps⟩
  | fuel + 1, attempt, backoff, sleeps =>
    match fn attempt with
    | none => ⟨.success, attempt, sleeps⟩
    | some e =>
      if isRetryableError (some e) = false then ⟨.nonRetryable e, attempt, sleeps⟩
      else if maxAttempts ≤ attempt then ⟨.exhausted (some e), attempt, sleeps⟩
      else
        retryAux fn maxAttempts maxInterval fuel (attempt + 1)
          (min (backoff * 2) maxInterval) (sleeps ++ [backoff])

/-- Embedding of RetryWithBackoff: the operation is a function from the
attempt number to its result on that attempt. -/
def RetryWithBackoff (cfg : RetryConfig) (fn : Nat → Option GoErr) : RetryTrace :=
  retryAux fn cfg.maxAttempts cfg.maxInterval cfg.maxAttempts 1 cfg.initialInterval []

/-- Operation used by the C5 witness: fails with a retryable 503 error on
attempts 1 and 2, succeeds from attempt 3 on. -/
def fn503 : Nat → Option GoErr :=
  fun n => if n ≤ 2 then some (GoErr.plain "unexpected status code: 503") else none

/-! ## Tag filter (pkg/filter/filter.go) -/

/-- Tag metadata, mirroring filter.TagInfo. The Go time.Time is modelled
as a Nat tick count; time.After is strict greater-than on ticks. -/
structure TagInfo where
  name : String
  updated : Nat
deriving DecidableEq, Repr

/-- A compiled filter, mirroring filter.Filter. A compiled regular
expression is modelled by its MatchString function. -/
structure Filter where
  Include : List (String → Bool)
  Exclude : List (String → Bool)
  Latest : Int

/-- Embedding of Filter.Match (filter.go lines 44 to 65): the exclude
loop returns false on the first exclude match; with no include patterns
everything surviving exclusion matches; otherwise the include loop returns
true on the first include match. Early-returning loops over patterns
become List.any. -/
def Filter.Match (f : Filter) (tag : String) : Bool :=
  if f.Exclude.any (fun re => re tag) then false
  else if f.Include.isEmpty then true
  else f.Include.any (fun re => re tag)

/-- Insertion into a list sorted by updated-at descending, using the
comparator of FilterTags (matched i Updated After matched j Updated). -/
def insertDesc (x : TagInfo) : List TagInfo → List TagInfo
  | [] => [x]
  | y :: ys => if y.updated < x.updated then x :: y :: ys else y :: insertDesc x ys

/-- Sorting by updated-at descending. The Go sort.Slice is an unspecified
(deterministic but unstable) sort under the same strict comparator; this
insertion sort realizes one ordering consistent with it, which fixes the
implementation-defined tie order. -/
def sortByUpdatedDesc (l : List TagInfo) : List TagInfo := l.foldr insertDesc []

/-- Embedding of Filter.FilterTags (filter.go lines 68 to 94): keep the
matching tags, sort by updated time newest first, truncate to Latest when
Latest is positive and the list is longer, and return the tag names. -/
def Filter.FilterTags (f : Filter) (tags : List TagInfo) : List String :=
  let matched := tags.filter (fun t => f.Match t.name)
  let sorted := sortByUpdatedDesc matched
  let truncated :=
    if 0 < f.Latest ∧ f.Latest < (sorted.length : Int) then sorted.take f.Latest.toNat
    else sorted
  truncated.map (fun t => t.name)

/-- Spec-side keep predicate, written from the claim text: keep exactly
the tags not matching any exclude regex that match at least one include
regex, or all such tags when the include list is empty. -/
def specKeep (f : Filter) (tag : String) : Bool :=
  (!f.Exclude.any (fun re => re tag)) &&
    (f.Include.isEmpty || f.Include.any (fun re => re tag))

/-- Spec-side pipeline, written from the claim text: filter by specKeep,
sort by updated-at descending, truncate to the first N when N > 0, return
names. -/
def filterTagsSpec (f : Filter) (tags : List TagInfo) : List String :=
  let kept := tags.filter (fun t => specKeep f t.name)
  let sorted := sortByUpdatedDesc kept
  (if 0 < f.Latest then sorted.take f.Latest.toNat else sorted).map (fun t => t.name)

/-- Concrete filter for the C3 witness: include v1 and v2, exclude v2,
keep the latest 1. -/
def witnessFilter : Filter :=
  { Include := [fun s => s == "v1" || s == "v2"],
    Exclude := [fun s => s == "v2"],
    Latest := 1 }

/-- Concrete tag list for the C3 witness. -/
def witnessTags : List TagInfo := [⟨"v1", 5⟩, ⟨"v2", 9⟩, ⟨"dev", 7⟩]

/-! ## Manifests (pkg/registry/manifest.go) -/

/-- Platform of a manifest-list entry, mirroring registry.Platform. -/
structure Platform where
  architecture : String
  os : String
  osVersion : String := ""
  variant : String := ""
deriving DecidableEq, Repr

/-- Content descriptor, mirroring registry.Descriptor. -/
structure Descriptor where
  mediaType : String
  size : Int
  digest : String
  platform : Option Platform := none
deriving DecidableEq, Repr

/-- Manifest-list entry, mirroring registry.ManifestEntry. -/
structure ManifestEntry where
  mediaType : String
  size : Int
  digest : String
  platform : Platform
deriving DecidableEq, Repr

/-- The fields of registry.Manifest populated by json.Unmarshal. -/
structure ParsedManifest where
  schemaVersion : Int
  mediaType : String
  config : Descriptor
  layers : List Descriptor
  manifests : List ManifestEntry
deriving DecidableEq, Repr

/-- registry.Manifest: the parsed fields plus the retained raw response
bytes and the captured Docker-Content-Digest header. -/
structure Manifest where
  schemaVersion : Int
  mediaType : String
  config : Descriptor
  layers : List Descriptor
  manifests : List ManifestEntry
  Raw : List Nat
  ContentDigest : String
deriving DecidableEq, Repr

/-- The observations GetManifest makes of the HTTP response to its GET:
status code, body bytes, and the Docker-Content-Digest header. -/
structure ManifestResponse where
  status : Nat
  body : List Nat
  dockerContentDigest : String
deriving DecidableEq, Repr

/-- Embedding of Client.GetManifest (manifest.go lines 49 to 81),
parameterized by the response and by the JSON decoder (json.Unmarshal into
the Manifest struct), so the theorem holds for every decoder: on a 200
response whose body decodes, the result carries the parsed fields, the
exact body bytes as Raw, and the response digest header. -/
def GetManifest (parse : List Nat → Option ParsedManifest)
    (resp : ManifestResponse) : Except String Manifest :=
  if resp.status ≠ 200 then .error "failed to get manifest"
  else
    match parse resp.body with
    | none => .error "failed to parse manifest"
    | some p =>
      .ok { schemaVersion := p.schemaVersion, mediaType := p.mediaType,
            config := p.config, layers := p.layers, manifests := p.manifests,
            Raw := resp.body, ContentDigest := resp.dockerContentDigest }

/-- An outbound HTTP request with a body. -/
structure HttpRequest where
  method : String
  path : String
  contentType : String
  body : List Nat
deriving DecidableEq, Repr

/-- The request issued by Client.PutManifest (manifest.go lines 84 to
108): a PUT whose body is the preserved raw bytes and whose Content-Type
is the manifest media type. -/
def PutManifestRequest (repository reference : String) (m : Manifest) : HttpRequest :=
  { method := "PUT", path := "/v2/" ++ repository ++ "/manifests/" ++ reference,
    contentType := m.mediaType, body := m.Raw }

/-- Embedding of Manifest.IsManifestList (manifest.go lines 137 to 140). -/
def Manifest.IsManifestList (m : Manifest) : Bool :=
  strContains m.mediaType "manifest.list" || strContains m.mediaType "image.index"

/-- Embedding of Manifest.GetAllBlobs (manifest.go lines 143 to 155): the
config descriptor when its digest is nonempty, followed by the layers. -/
def Manifest.GetAllBlobs (m : Manifest) : List Descriptor :=
  (if m.config.digest ≠ "" then [m.config] else []) ++ m.layers

/-- Decoder used by the C1 witness: accepts any body and returns a fixed
parsed view (the raw-byte property is decoder-independent). -/
def witnessParse : List Nat → Option ParsedManifest :=
  fun _ => some
    { schemaVersion := 2,
      mediaType := "application/vnd.docker.distribution.manifest.v2+json",
      config := { mediaType := "application/vnd.docker.container.image.v1+json",
                  size := 7, digest := "sha256:cfg" },
      layers := [], manifests := [] }

/-- Concrete 200 response for the C1 witness. -/
def witnessManifestResp : ManifestResponse :=
  { status := 200, body := [1, 2, 3], dockerContentDigest := "sha256:abc" }

/-- The manifest GetManifest produces for the C1 witness inputs. -/
def witnessManifest : Manifest :=
  { schemaVersion := 2,
    mediaType := "application/vnd.docker.distribution.manifest.v2+json",
    config := { mediaType := "application/vnd.docker.container.image.v1+json",
                size := 7, digest := "sha256:cfg" },
    layers := [], manifests := [],
    Raw := [1, 2, 3], ContentDigest := "sha256:abc" }

/-! ## Blob upload (registry client blob operations, src/unnamed/part_001) -/

/-- The observations the blob-upload steps make of an HTTP response:
status code and Location header. -/
structure BlobHttpResponse where
  status : Nat
  location : String
deriving DecidableEq, Repr

/-- An outbound request of the blob-upload protocol: method, full URL,
and the declared content length (the PATCH carries the blob bytes, the
POST and the commit PUT have empty bodies). -/
structure BlobRequest where
  method : String
  url : String
  contentLength : Nat
deriving DecidableEq, Repr

/-- The path used by initiateUpload (part_001 lines 84 to 90): the upload
endpoint, with the cross-repository mount query appended when the digest
is nonempty (the from parameter is the same repository). -/
def initiatePath (repository digest : String) : String :=
  "/v2/" ++ repository ++ "/blobs/uploads/" ++
    (if digest ≠ "" then "?mount=" ++ digest ++ "&from=" ++ repository else "")

/-- Location resolution shared by initiateUpload and uploadContent: a
value not beginning with http is prefixed with the endpoint base URL, an
absolute value is used as-is. -/
def resolveLocation (baseURL location : String) : String :=
  if strHasPre location "http" then location else baseURL ++ location

/-- Outcome of initiateUpload (part_001 lines 84 to 119) as a function of
the POST response: 201 means the mount succeeded and is reported as an
error by this code path, anything other than 202 is an error, a missing
Location header is an error, otherwise the resolved upload URL. -/
def initiateUploadResult (baseURL : String) (resp : BlobHttpResponse) :
    Except String String :=
  if resp.status = 201 then .error "blob already exists"
  else if resp.status ≠ 202 then .error "failed to initiate upload"
  else if resp.location = "" then .error "no location header in response"
  else .ok (resolveLocation baseURL resp.location)

/-- Outcome of uploadContent (part_001 lines 122 to 162) as a function of
the PATCH response: 202 with a nonempty Location yields the resolved new
upload URL. -/
def uploadContentResult (baseURL : String) (resp : BlobHttpResponse) :
    Except String String :=
  if resp.status ≠ 202 then .error "failed to upload content"
  else if resp.location = "" then .error "no location header in PATCH response"
  else .ok (resolveLocation baseURL resp.location)

/-- The URL built by completeUpload (part_001 lines 165 to 174): the
upload URL with the digest query parameter set. Models url.Parse plus
Query().Set plus Encode on upload URLs that carry no digest parameter
yet. -/
def setDigestQuery (url digest : String) : String :=
  if strContains url "?" then url ++ "&digest=" ++ digest
  else url ++ "?digest=" ++ digest

/-- Outcome of completeUpload (part_001 lines 165 to 200) as a function of
the commit PUT response: only 201 is success. -/
def completeUploadResult (resp : BlobHttpResponse) : Except String Unit :=
  if resp.status ≠ 201 then .error "failed to complete upload" else .ok ()

/-- Embedding of Client.PutBlob (part_001 lines 62 to 81), parameterized
by the server behavior: initiate the upload with a POST, PATCH the bytes
to the resolved Location, and commit with a PUT with the digest query and
zero content. Returns the outcome and the request/response trace. -/
def putBlob (baseURL repository digest : String) (size : Nat)
    (serve : BlobRequest → BlobHttpResponse) :
    Except String Unit × List (BlobRequest × BlobHttpResponse) :=
  let req1 : BlobRequest := ⟨"POST", baseURL ++ initiatePath repository digest, 0⟩
  let resp1 := serve req1
  match initiateUploadResult baseURL resp1 with
  | .error e => (.error ("failed to initiate upload: " ++ e), [(req1, resp1)])
  | .ok uploadURL =>
    let req2 : BlobRequest := ⟨"PATCH", uploadURL, size⟩
    let resp2 := serve req2
    match uploadContentResult baseURL resp2 with
    | .error e =>
      (.error ("failed to upload content: " ++ e), [(req1, resp1), (req2, resp2)])
    | .ok newUploadURL =>
      let req3 : BlobRequest := ⟨"PUT", setDigestQuery newUploadURL digest, 0⟩
      let resp3 := serve req3
      match completeUploadResult resp3 with
      | .error e =>
        (.error ("failed to complete upload: " ++ e),
          [(req1, resp1), (req2, resp2), (req3, resp3)])
      | .ok _ => (.ok (), [(req1, resp1), (req2, resp2), (req3, resp3)])

/-- Outcome view of putBlob. -/
def putBlobResult (baseURL repository digest : String) (size : Nat)
    (serve : BlobRequest → BlobHttpResponse) : Except String Unit :=
  (putBlob baseURL repository digest size serve).1

/-- Trace view of putBlob. -/
def putBlobTrace (baseURL repository digest : String) (size : Nat)
    (serve : BlobRequest → BlobHttpResponse) :
    List (BlobRequest × BlobHttpResponse) :=
  (putBlob baseURL repository digest size serve).2

/-! ## Blob sync task (Engine worker task, src/unnamed/part_001 lines 562 to 613) -/

/-- A Go runtime panic observable in the embedded code. -/
inductive GoPanic
  | sliceOutOfRange
deriving DecidableEq, Repr

/-- Go string slicing s[:n]: valid only when n is at most the length,
otherwise the runtime panics with slice bounds out of range. -/
def goSliceTo (n : Nat) (s : String) : Except GoPanic String :=
  if n ≤ s.length then .ok ⟨s.toList.take n⟩ else .error .sliceOutOfRange

/-- The outcomes the engine blob task observes from the registry clients:
the target BlobExists result for a digest, and the result of the retried
CopyBlob for a digest (none is success). The retry internals are verified
separately with RetryWithBackoff. -/
structure BlobTaskWorld where
  existsOnTarget : String → Except GoErr Bool
  copyOutcome : String → Option GoErr

/-- Embedding of BlobSyncTask.Execute (part_001 lines 575 to 608): check
existence on the target, print the digest sliced to 12 characters, copy
with retry on absence. Every fmt call that slices t.Digest[:12] is
modelled by goSliceTo 12, which panics on digests shorter than 12. -/
def blobTaskExecute (w : BlobTaskWorld) (digest : String) :
    Except GoPanic (Option GoErr) :=
  match w.existsOnTarget digest with
  | .error e => .ok (some { e with msg := "failed to check blob existence: " ++ e.msg })
  | .ok true =>
    match goSliceTo 12 digest with
    | .error p => .error p
    | .ok _ => .ok none
  | .ok false =>
    match goSliceTo 12 digest with
    | .error p => .error p
    | .ok short =>
      match w.copyOutcome digest with
      | some e => .ok (some { e with msg := "failed to copy blob " ++ short ++ ": " ++ e.msg })
      | none => .ok none

/-- Embedding of BlobSyncTask.Description (part_001 lines 611 to 613),
which formats t.Digest[:12] unconditionally. -/
def blobTaskDescription (digest : String) : Except GoPanic String :=
  match goSliceTo 12 digest with
  | .error p => .error p
  | .ok short => .ok ("sync blob " ++ short)

/-! ## Engine single-manifest sync (src/unnamed/part_001 lines 492 to 560) -/

/-- Events observable during one SyncSingleManifest run: one blob task
completion per submitted digest (failed records a task error), and the
manifest upload. -/
inductive EngineEvent
  | blobTask (digest : String) (failed : Bool)
  | manifestPut (repository reference : String)
deriving DecidableEq, Repr

/-- The worker pool run to completion on the submitted blob tasks, in
submission order (Wait joins every worker before returning, so the set of
completed tasks and their results is interleaving-independent). Returns
each digest with its task result, or propagates a task panic. -/
def runPool (w : BlobTaskWorld) : List String → Except GoPanic (List (String × Option GoErr))
  | [] => .ok []
  | d :: ds =>
    match blobTaskExecute w d with
    | .error p => .error p
    | .ok r =>
      match runPool w ds with
      | .error p => .error p
      | .ok rs => .ok ((d, r) :: rs)

/-- Embedding of Engine.SyncSingleManifest (part_001 lines 493 to 560):
submit one BlobSyncTask per descriptor of GetAllBlobs, wait for the pool
(Wait returns an error exactly when some task errored), and only on a
clean pool push the manifest with PutManifest (outcome putOutcome). -/
def syncSingleManifest (w : BlobTaskWorld) (putOutcome : Option GoErr)
    (m : Manifest) (targetRepo reference : String) :
    Except GoPanic (List EngineEvent × Option GoErr) :=
  match runPool w (m.GetAllBlobs.map (fun d => d.digest)) with
  | .error p => .error p
  | .ok results =>
    if results.any (fun r => r.2.isSome) then
      .ok (results.map (fun r => EngineEvent.blobTask r.1 r.2.isSome),
        some (GoErr.plain "blob sync failed"))
    else
      match putOutcome with
      | some e =>
        .ok (results.map (fun r => EngineEvent.blobTask r.1 r.2.isSome) ++
            [EngineEvent.manifestPut targetRepo reference],
          some { e with msg := "failed to upload manifest: " ++ e.msg })
      | none =>
        .ok (results.map (fun r => EngineEvent.blobTask r.1 r.2.isSome) ++
          [EngineEvent.manifestPut targetRepo reference], none)

/-! ## Scheduler task run (src/unnamed/part_009) -/

/-- One planned (repository, tag) entry of the scheduler run, with its
pre-fetched manifest, mirroring the repoTagInfo records built in runTask
lines 355 to 426. -/
structure RepoTagPlan where
  repoName : String
  tag : String
  manifest : Manifest
  sourceRepo : String
  targetRepo : String
deriving DecidableEq, Repr

/-- Execution counters, mirroring models.Execution. -/
structure Counters where
  totalBlobs : Nat := 0
  syncedBlobs : Nat := 0
  skippedBlobs : Nat := 0
  failedBlobs : Nat := 0
  syncedSize : Int := 0
deriving DecidableEq, Repr

/-- The outcomes the scheduler run observes: target BlobExists per digest,
CopyBlob per digest, PutManifest per tag (none is success). -/
structure SchedWorld where
  existsOnTarget : String → Except GoErr Bool
  copyOutcome : String → Option GoErr
  putOutcome : String → Option GoErr

/-- Events observable during the scheduler sync phase. -/
inductive SchedEvent
  | blobCheckFailed (tag digest : String)
  | blobSkipped (tag digest : String)
  | blobCopied (tag digest : String)
  | blobCopyFailed (tag digest : String)
  | manifestPut (tag : String) (ok : Bool)
deriving DecidableEq, Repr

/-- One iteration of the blob loop of runTask (part_009 lines 471 to 512):
a failed existence check increments failedBlobs; an existing blob
increments skippedBlobs and syncedBlobs; a failed copy logs the digest
sliced to 12 characters and increments failedBlobs; a successful copy
increments syncedBlobs and syncedSize. -/
def schedSyncBlob (w : SchedWorld) (tag : String) (c : Counters) (d : Descriptor) :
    Except GoPanic (Counters × SchedEvent) :=
  match w.existsOnTarget d.digest with
  | .error _ =>
    .ok ({ c with failedBlobs := c.failedBlobs + 1 }, .blobCheckFailed tag d.digest)
  | .ok true =>
    .ok ({ c with skippedBlobs := c.skippedBlobs + 1, syncedBlobs := c.syncedBlobs + 1 },
      .blobSkipped tag d.digest)
  | .ok false =>
    match w.copyOutcome d.digest with
    | some _ =>
      match goSliceTo 12 d.digest with
      | .error p => .error p
      | .ok _ =>
        .ok ({ c with failedBlobs := c.failedBlobs + 1 }, .blobCopyFailed tag d.digest)
    | none =>
      .ok ({ c with syncedBlobs := c.syncedBlobs + 1, syncedSize := c.syncedSize + d.size },
        .blobCopied tag d.digest)

/-- The blob loop of runTask over the blobs of one tag. -/
def schedSyncBlobs (w : SchedWorld) (tag : String) :
    Counters → List Descriptor → Except GoPanic (Counters × List SchedEvent)
  | c, [] => .ok (c, [])
  | c, d :: ds =>
    match schedSyncBlob w tag c d with
    | .error p => .error p
    | .ok (c1, ev) =>
      match schedSyncBlobs w tag c1 ds with
      | .error p => .error p
      | .ok (c2, evs) => .ok (c2, ev :: evs)

/-- One tag of the runTask sync phase (part_009 lines 441 to 532): run the
blob loop, then push the manifest unconditionally; a push failure is
logged and the loop continues with the next tag. -/
def schedSyncTag (w : SchedWorld) (c : Counters) (rt : RepoTagPlan) :
    Except GoPanic (Counters × List SchedEvent) :=
  match schedSyncBlobs w rt.tag c rt.manifest.GetAllBlobs with
  | .error p => .error p
  | .ok (c1, evs) =>
    .ok (c1, evs ++ [SchedEvent.manifestPut rt.tag (w.putOutcome rt.tag).isNone])

/-- The runTask sync phase over all planned tags. -/
def schedRunTags (w : SchedWorld) :
    Counters → List RepoTagPlan → Except GoPanic (Counters × List SchedEvent)
  | c, [] => .ok (c, [])
  | c, rt :: rts =>
    match schedSyncTag w c rt with
    | .error p => .error p
    | .ok (c1, evs) =>
      match schedRunTags w c1 rts with
      | .error p => .error p
      | .ok (c2, evs2) => .ok (c2, evs ++ evs2)

/-- The blob total computed by the runTask planning phase (part_009 lines
362 to 429): totalBlobsCount accumulates len(GetAllBlobs) per planned
tag. -/
def planTotalBlobs (plans : List RepoTagPlan) : Nat :=
  (plans.map (fun rt => rt.manifest.GetAllBlobs.length)).sum

/-- The number of distinct digests across the plan (the quantity the claim
says totalBlobs equals). -/
def planDistinctDigests (plans : List RepoTagPlan) : Nat :=
  ((plans.map (fun rt => rt.manifest.GetAllBlobs.map (fun d => d.digest))).flatten).dedup.length

/-- Embedding of the observable runTask core (part_009 lines 355 to 542):
set execution.TotalBlobs from the planning pass, then run the sync
phase. -/
def schedRunTask (w : SchedWorld) (plans : List RepoTagPlan) :
    Except GoPanic (Counters × List SchedEvent) :=
  schedRunTags w { totalBlobs := planTotalBlobs plans } plans

/-! ## Scheduler execution tracking (src/unnamed/part_009 lines 99 to 176,
544 to 556) -/

/-- Execution status, mirroring models.ExecutionStatus (the model also
declares pending and canceled). -/
inductive ExecutionStatus
  | pending
  | running
  | success
  | failed
  | canceled
deriving DecidableEq, BEq, Repr

/-- An execution record as the scheduler mutates it. -/
structure ExecRecord where
  taskId : Nat
  status : ExecutionStatus
deriving DecidableEq, BEq, Repr

/-- Scheduler state: the running map (task ids with a cancel handle) and
the stored execution records. -/
structure SchedState where
  running : List Nat
  executions : List ExecRecord
deriving DecidableEq, Repr

/-- The status the ExecuteTask goroutine writes when runTask returns
(part_009 lines 129 to 176): failed on any error, success otherwise. No
code path assigns models.StatusCanceled. -/
def finishExecutionStatus (runErr : Option GoErr) : ExecutionStatus :=
  match runErr with
  | some _ => .failed
  | none => .success

/-- Embedding of sendNotification gating (part_009 lines 559 to 583):
skip when notifications are off, when the condition is failed and the
status is not failed, or when no channels are configured; otherwise a
notification is sent. -/
def sendNotificationDecision (sendNotif : Bool) (condition : String)
    (status : ExecutionStatus) (channelIds : List Nat) : Bool :=
  if sendNotif = false then false
  else if condition = "failed" ∧ status ≠ ExecutionStatus.failed then false
  else if channelIds = [] then false
  else true

/-- Embedding of the synchronous part of ExecuteTask (part_009 lines 99
to 127): fail fast when the task id is in the running map; otherwise
create the execution record with status running and register the cancel
handle. -/
def execTaskStep (s : SchedState) (t : Nat) : SchedState × Option String :=
  if t ∈ s.running then (s, some "task is already running")
  else ({ running := t :: s.running,
          executions := s.executions ++ [{ taskId := t, status := .running }] }, none)

/-- Set the status of the i-th execution record. -/
def setExecStatus : List ExecRecord → Nat → ExecutionStatus → List ExecRecord
  | [], _, _ => []
  | e :: es, 0, st => { e with status := st } :: es
  | e :: es, i + 1, st => e :: setExecStatus es i st

/-- The completion of the goroutine owning execution i (part_009 lines
129 to 176): write the terminal status (success or failed), then delete
the task from the running map. -/
def finishTaskStep (s : SchedState) (i : Nat) (ok : Bool) : SchedState :=
  match s.executions.get? i with
  | some e =>
    if e.status = .running then
      { running := s.running.erase e.taskId,
        executions := setExecStatus s.executions i (if ok then .success else .failed) }
    else s
  | none => s

/-- Embedding of CancelTask (part_009 lines 545 to 556): flip the cancel
handle and delete the running-map entry immediately; the execution record
is updated only later, by its goroutine. -/
def cancelTaskStep (s : SchedState) (t : Nat) : SchedState × Option String :=
  if t ∈ s.running then ({ s with running := s.running.erase t }, none)
  else (s, some "task is not running")

/-- Interleaved scheduler actions: an ExecuteTask call, a goroutine
completion, a CancelTask call. -/
inductive SchedAction
  | execTask (t : Nat)
  | finishTask (i : Nat) (ok : Bool)
  | cancelTask (t : Nat)
deriving DecidableEq, Repr

/-- One scheduler transition. -/
def schedStep (s : SchedState) : SchedAction → SchedState
  | .execTask t => (execTaskStep s t).1
  | .finishTask i ok => finishTaskStep s i ok
  | .cancelTask t => (cancelTaskStep s t).1

/-- The scheduler state after a sequence of actions from the initial
empty state. -/
def schedRun (acts : List SchedAction) : SchedState :=
  acts.foldl schedStep ⟨[], []⟩

/-- Whether a record counts toward the running executions of task t. -/
def runPred (t : Nat) (e : ExecRecord) : Bool :=
  decide (e.taskId = t ∧ e.status = ExecutionStatus.running)

/-- The number of execution records of a task currently in status
running. -/
def runningCountL (l : List ExecRecord) (t : Nat) : Nat :=
  (l.filter (runPred t)).length

/-- runningCountL on a scheduler state. -/
def runningCount (s : SchedState) (t : Nat) : Nat :=
  runningCountL s.executions t

/-- World for the C2 witness: every blob already exists on the target. -/
def engineWorldOk : BlobTaskWorld := ⟨fun _ => Except.ok true, fun _ => none⟩

/-- Manifest for the C2 witness: one layer, no config digest. -/
def engineManifestB : Manifest :=
  { schemaVersion := 2,
    mediaType := "application/vnd.docker.distribution.manifest.v2+json",
    config := { mediaType := "", size := 0, digest := "" },
    layers := [{ mediaType := "application/vnd.docker.image.rootfs.diff.tar.gzip",
                 size := 5, digest := "sha256:bbbbbbbbbbbb" }],
    manifests := [], Raw := [1], ContentDigest := "sha256:mmm" }

/-- World for C6: every blob already exists on the target. -/
def c6World : SchedWorld := ⟨fun _ => Except.ok true, fun _ => none, fun _ => none⟩

/-- Manifest shared by two C6 plan entries: a single layer blob. -/
def c6Manifest : Manifest :=
  { schemaVersion := 2,
    mediaType := "application/vnd.docker.distribution.manifest.v2+json",
    config := { mediaType := "", size := 0, digest := "" },
    layers := [{ mediaType := "application/vnd.docker.image.rootfs.diff.tar.gzip",
                 size := 100, digest := "sha256:aaaaaaaaaaaa" }],
    manifests := [], Raw := [2], ContentDigest := "sha256:ddd" }

/-- First planned tag of the C6 inputs. -/
def c6Plan1 : RepoTagPlan :=
  { repoName := "nginx", tag := "1.0", manifest := c6Manifest,
    sourceRepo := "library/nginx", targetRepo := "mirror/nginx" }

/-- Second planned tag of the C6 inputs, referencing the same digest. -/
def c6Plan2 : RepoTagPlan :=
  { repoName := "nginx", tag := "2.0", manifest := c6Manifest,
    sourceRepo := "library/nginx", targetRepo := "mirror/nginx" }

/-- The at-most-one-running invariant coupled with the running map. -/
def SchedInv (s : SchedState) : Prop :=
  ∀ t, runningCount s t ≤ 1 ∧ (runningCount s t = 1 → t ∈ s.running)

/-- Cancel detection on scheduler actions. -/
def SchedAction.isCancel : SchedAction → Bool
  | .cancelTask _ => true
  | _ => false

/-- Server behavior for the C9 witness: 202 with a relative Location on
POST, 202 with an absolute Location on PATCH, 201 on the commit PUT. -/
def witnessServe : BlobRequest → BlobHttpResponse :=
  fun r =>
    if r.method = "POST" then ⟨202, "/uploads/1"⟩
    else if r.method = "PATCH" then ⟨202, "http://reg.example/uploads/2"⟩
    else ⟨201, ""⟩

/-! ## Lemmas and claim theorems -/
/-- C4 counterexample: the error produced by Client.GetBlob for an HTTP 500
response, namely "failed to get blob: 500 internal error", is an HTTP
status-bearing error carrying 500, yet isRetryableError returns false for
it, because the status-code block of the classifier only runs when the
message contains the literal text "status code". This refutes the claim
that every HTTP status-bearing error carrying 500 is classified
retryable. -/
theorem C4_counterexample :
    strContains (GoErr.plain "failed to get blob: 500 internal error").msg "500" = true ∧
    isRetryableError (some (GoErr.plain "failed to get blob: 500 internal error")) = false := by
  decide

/-- C4 amended: isRetryableError returns false for every context
cancellation or deadline-exceeded error; for a plain string error it
returns true whenever the lowercased message contains the literal text
"status code" together with one of 429, 500, 502, 503, 504; and it returns
false (fail closed) whenever the lowercased message contains none of the
textual retryable patterns and none of those five codes — in particular
for "status code" errors carrying 400, 401, 403 or 404. -/
theorem C4_isRetryableError_amended (e : GoErr) :
    ((e.isCtxCanceled = true ∨ e.isCtxDeadline = true) → isRetryableError (some e) = false) ∧
    (e.isPlain →
      ((strContains (strToLower e.msg) "status code" = true ∧
        (strContains (strToLower e.msg) "429" = true ∨
         strContains (strToLower e.msg) "500" = true ∨
         strContains (strToLower e.msg) "502" = true ∨
         strContains (strToLower e.msg) "503" = true ∨
         strContains (strToLower e.msg) "504" = true)) →
        isRetryableError (some e) = true) ∧
      ((retryablePatterns.any (fun p => strContains (strToLower e.msg) p) = false ∧
        strContains (strToLower e.msg) "429" = false ∧
        strContains (strToLower e.msg) "500" = false ∧
        strContains (strToLower e.msg) "502" = false ∧
        strContains (strToLower e.msg) "503" = false ∧
        strContains (strToLower e.msg) "504" = false) →
        isRetryableError (some e) = false)) := by
  refine ⟨fun h => ?_, fun hp => ⟨fun hs => ?_, fun hf => ?_⟩⟩
  · have hc : (e.isCtxCanceled || e.isCtxDeadline) = true := by
      rcases h with h | h <;> simp [h]
    simp [isRetryableError, hc]
  · obtain ⟨h1, h2, h3, h4, h5, h6, h7⟩ := hp
    obtain ⟨hsc, hd⟩ := hs
    simp only [isRetryableError, h1, h2, h3, h4, h5, h6, h7, Bool.or_self,
      Bool.false_or, if_false]
    by_cases hpat : retryablePatterns.any (fun p => strContains (strToLower e.msg) p) = true
    · simp [hpat]
    · simp only [Bool.not_eq_true] at hpat
      rcases hd with h | h | h | h | h <;> simp [hpat, hsc, h]
  · obtain ⟨h1, h2, h3, h4, h5, h6, h7⟩ := hp
    obtain ⟨hpat, c1, c2, c3, c4, c5⟩ := hf
    simp only [isRetryableError, h1, h2, h3, h4, h5, h6, h7, Bool.or_self,
      Bool.false_or, if_false]
    simp [hpat, c1, c2, c3, c4, c5]

/-- C4 witness: the amended theorem applied to the concrete status-bearing
errors "unexpected status code: 503" (retryable) and
"unexpected status code: 404" (not retryable). -/
theorem C4_isRetryableError_amended_witness :
    isRetryableError (some (GoErr.plain "unexpected status code: 503")) = true ∧
    isRetryableError (some (GoErr.plain "unexpected status code: 404")) = false := by
  have h1 := C4_isRetryableError_amended (GoErr.plain "unexpected status code: 503")
  have h2 := C4_isRetryableError_amended (GoErr.plain "unexpected status code: 404")
  exact ⟨((h1.2 ⟨rfl, rfl, rfl, rfl, rfl, rfl, rfl⟩).1
           ⟨by decide, Or.inr (Or.inr (Or.inr (Or.inl (by decide))))⟩),
         ((h2.2 ⟨rfl, rfl, rfl, rfl, rfl, rfl, rfl⟩).2
           ⟨by decide, by decide, by decide, by decide, by decide, by decide⟩)⟩

lemma retryAux_step_success (fn : Nat → Option GoErr) (maxA maxI fuel attempt b : Nat)
    (sleeps : List Nat) (hf : fn attempt = none) :
    retryAux fn maxA maxI (fuel + 1) attempt b sleeps = ⟨.success, attempt, sleeps⟩ := by
  simp [retryAux, hf]

lemma retryAux_step_nonretryable (fn : Nat → Option GoErr) (maxA maxI fuel attempt b : Nat)
    (sleeps : List Nat) (e : GoErr) (hf : fn attempt = some e)
    (he : isRetryableError (some e) = false) :
    retryAux fn maxA maxI (fuel + 1) attempt b sleeps = ⟨.nonRetryable e, attempt, sleeps⟩ := by
  simp [retryAux, hf, he]

lemma retryAux_step_retry (fn : Nat → Option GoErr) (maxA maxI fuel attempt b : Nat)
    (sleeps : List Nat) (e : GoErr) (hf : fn attempt = some e)
    (he : isRetryableError (some e) = true) (hlt : attempt < maxA) :
    retryAux fn maxA maxI (fuel + 1) attempt b sleeps =
      retryAux fn maxA maxI fuel (attempt + 1) (min (b * 2) maxI) (sleeps ++ [b]) := by
  simp [retryAux, hf, he, Nat.not_le.mpr hlt]

lemma retryAux_sleeps_closed_form (fn : Nat → Option GoErr) (maxA maxI i0 : Nat) :
    ∀ (fuel attempt b : Nat) (sleeps : List Nat),
      b = min (i0 * 2 ^ sleeps.length) maxI →
      sleeps = (List.range sleeps.length).map (fun k => min (i0 * 2 ^ k) maxI) →
      ∃ n, (retryAux fn maxA maxI fuel attempt b sleeps).sleeps =
        (List.range n).map (fun k => min (i0 * 2 ^ k) maxI) := by
  intro fuel
  induction fuel with
  | zero =>
    intro attempt b sleeps _ hs
    exact ⟨sleeps.length, by simpa [retryAux] using hs⟩
  | succ fuel ih =>
    intro attempt b sleeps hb hs
    match hfa : fn attempt with
    | none => exact ⟨sleeps.length, by simp [retryAux, hfa]; exact hs⟩
    | some e =>
      by_cases he : isRetryableError (some e) = false
      · exact ⟨sleeps.length, by simp [retryAux, hfa, he]; exact hs⟩
      · by_cases hm : maxA ≤ attempt
        · exact ⟨sleeps.length, by simp [retryAux, hfa, he, hm]; exact hs⟩
        · rw [retryAux_step_retry fn maxA maxI fuel attempt b sleeps e hfa
            (by simpa using he) (Nat.lt_of_not_le hm)]
          apply ih
          · have hlen : (sleeps ++ [b]).length = sleeps.length + 1 := by simp
            have hx : i0 * 2 ^ (sleeps.length + 1) = i0 * 2 ^ sleeps.length * 2 := by ring
            rw [hlen, hb, hx]
            omega
          · have hlen : (sleeps ++ [b]).length = sleeps.length + 1 := by simp
            rw [hlen, List.range_succ, List.map_append]
            simp only [List.map_cons, List.map_nil]
            rw [← hs, hb]

/-- C5 counterexample: with policy maxAttempts = 5, initialDelay = 40,
maxDelay = 10 and an operation that fails retryably (503) on the first two
attempts, the first inter-attempt wait is the uncapped 40, not
min(40 * 2^0, 10) = 10 as the claim states, and the total back-off sleep
is 50, less than initialDelay + 2 * initialDelay = 120. -/
theorem C5_counterexample :
    (RetryWithBackoff ⟨5, 40, 10⟩
      (fun n => if n ≤ 2 then some (GoErr.plain "unexpected status code: 503") else none)).sleeps
      = [40, 10] ∧
    ¬ (40 = min (40 * 2 ^ 0) 10) ∧ 40 + 10 < 40 + 2 * 40 := by
  refine ⟨by decide, by decide, by decide⟩

/-- C5 amended: RetryWithBackoff invokes the operation immediately on
attempt 1; on a non-retryable first failure it returns the wrapped error
after a single attempt and no sleep; the doubled delay (not the slept
delay) is capped at maxDelay, so when initialDelay is at most maxDelay the
k-th inter-attempt wait equals min(initialDelay * 2 ^ (k - 1), maxDelay);
and an operation failing retryably on attempts 1 and 2 and succeeding on
attempt 3 is observed as a single success with sleeps initialDelay and
2 * initialDelay, totalling at least 3 * initialDelay, provided
2 * initialDelay is at most maxDelay. -/
theorem C5_RetryWithBackoff_amended (cfg : RetryConfig) (fn : Nat → Option GoErr) :
    (1 ≤ cfg.maxAttempts → fn 1 = none →
      RetryWithBackoff cfg fn = ⟨.success, 1, []⟩) ∧
    (∀ e : GoErr, 1 ≤ cfg.maxAttempts → fn 1 = some e →
      isRetryableError (some e) = false →
      RetryWithBackoff cfg fn = ⟨.nonRetryable e, 1, []⟩) ∧
    (cfg.initialInterval ≤ cfg.maxInterval →
      ∃ n, (RetryWithBackoff cfg fn).sleeps =
        (List.range n).map (fun k => min (cfg.initialInterval * 2 ^ k) cfg.maxInterval)) ∧
    (∀ e : GoErr, fn 1 = some e → fn 2 = some e → fn 3 = none →
      isRetryableError (some e) = true → 3 ≤ cfg.maxAttempts →
      cfg.initialInterval * 2 ≤ cfg.maxInterval →
      RetryWithBackoff cfg fn =
        ⟨.success, 3, [cfg.initialInterval, cfg.initialInterval * 2]⟩ ∧
      cfg.initialInterval + 2 * cfg.initialInterval ≤
        (RetryWithBackoff cfg fn).sleeps.sum) := by
  refine ⟨?_, ?_, ?_, ?_⟩
  · intro h1 hf
    obtain ⟨m, hm⟩ : ∃ m, cfg.maxAttempts = m + 1 := ⟨cfg.maxAttempts - 1, by omega⟩
    rw [RetryWithBackoff, hm]
    exact retryAux_step_success fn (m + 1) cfg.maxInterval m 1 cfg.initialInterval [] hf
  · intro e h1 hf he
    obtain ⟨m, hm⟩ : ∃ m, cfg.maxAttempts = m + 1 := ⟨cfg.maxAttempts - 1, by omega⟩
    rw [RetryWithBackoff, hm]
    exact retryAux_step_nonretryable fn (m + 1) cfg.maxInterval m 1 cfg.initialInterval [] e hf he
  · intro hle
    rw [RetryWithBackoff]
    exact retryAux_sleeps_closed_form fn cfg.maxAttempts cfg.maxInterval cfg.initialInterval
      cfg.maxAttempts 1 cfg.initialInterval []
      (by simp [Nat.min_eq_left hle]) rfl
  · intro e hf1 hf2 hf3 he h3 hcap
    obtain ⟨m, hm⟩ : ∃ m, cfg.maxAttempts = m + 3 := ⟨cfg.maxAttempts - 3, by omega⟩
    have hmin : min (cfg.initialInterval * 2) cfg.maxInterval = cfg.initialInterval * 2 :=
      Nat.min_eq_left hcap
    have hrun : RetryWithBackoff cfg fn =
        ⟨.success, 3, [cfg.initialInterval, cfg.initialInterval * 2]⟩ := by
      calc RetryWithBackoff cfg fn
          = retryAux fn (m + 3) cfg.maxInterval ((m + 2) + 1) 1 cfg.initialInterval [] := by
            rw [RetryWithBackoff, hm]
        _ = retryAux fn (m + 3) cfg.maxInterval ((m + 1) + 1) 2
              (min (cfg.initialInterval * 2) cfg.maxInterval) ([] ++ [cfg.initialInterval]) :=
            retryAux_step_retry fn (m + 3) cfg.maxInterval (m + 2) 1 cfg.initialInterval [] e
              hf1 he (by omega)
        _ = retryAux fn (m + 3) cfg.maxInterval (m + 1) 3
              (min (min (cfg.initialInterval * 2) cfg.maxInterval * 2) cfg.maxInterval)
              (([] ++ [cfg.initialInterval]) ++ [min (cfg.initialInterval * 2) cfg.maxInterval]) :=
            retryAux_step_retry fn (m + 3) cfg.maxInterval (m + 1) 2
              (min (cfg.initialInterval * 2) cfg.maxInterval) ([] ++ [cfg.initialInterval]) e
              hf2 he (by omega)
        _ = ⟨.success, 3,
              (([] ++ [cfg.initialInterval]) ++ [min (cfg.initialInterval * 2) cfg.maxInterval])⟩ :=
            retryAux_step_success fn (m + 3) cfg.maxInterval m 3
              (min (min (cfg.initialInterval * 2) cfg.maxInterval * 2) cfg.maxInterval)
              (([] ++ [cfg.initialInterval]) ++ [min (cfg.initialInterval * 2) cfg.maxInterval]) hf3
        _ = ⟨.success, 3, [cfg.initialInterval, cfg.initialInterval * 2]⟩ := by
            rw [hmin]; rfl
    refine ⟨hrun, ?_⟩
    rw [hrun]
    simp [List.sum_cons]
    omega

/-- C5 witness: the amended theorem applied to the concrete policy
(maxAttempts 5, initialDelay 100, maxDelay 1000) and the twice-failing
operation fn503. -/
theorem C5_RetryWithBackoff_amended_witness :
    RetryWithBackoff ⟨5, 100, 1000⟩ fn503 = ⟨.success, 3, [100, 200]⟩ ∧
    100 + 2 * 100 ≤ (RetryWithBackoff ⟨5, 100, 1000⟩ fn503).sleeps.sum := by
  have h := (C5_RetryWithBackoff_amended ⟨5, 100, 1000⟩ fn503).2.2.2
    (GoErr.plain "unexpected status code: 503")
    (by decide) (by decide) (by decide) (by decide) (by decide) (by decide)
  exact h

lemma mem_insertDesc (z x : TagInfo) (l : List TagInfo) :
    z ∈ insertDesc x l ↔ z = x ∨ z ∈ l := by
  induction l with
  | nil => simp [insertDesc]
  | cons y ys ih =>
    by_cases h : y.updated < x.updated
    · simp [insertDesc, h]
    · simp [insertDesc, h, ih]
      tauto

lemma pairwise_insertDesc (x : TagInfo) (l : List TagInfo)
    (h : l.Pairwise (fun a b => b.updated ≤ a.updated)) :
    (insertDesc x l).Pairwise (fun a b => b.updated ≤ a.updated) := by
  induction l with
  | nil => simp [insertDesc]
  | cons y ys ih =>
    rw [List.pairwise_cons] at h
    by_cases hc : y.updated < x.updated
    · have hall : ∀ z ∈ y :: ys, z.updated ≤ x.updated := by
        intro z hz
        rcases List.mem_cons.mp hz with hz | hz
        · subst hz; omega
        · have := h.1 z hz; omega
      simp only [insertDesc, if_pos hc]
      exact List.Pairwise.cons hall (List.pairwise_cons.mpr h)
    · have hall : ∀ z ∈ insertDesc x ys, z.updated ≤ y.updated := by
        intro z hz
        rcases (mem_insertDesc z x ys).mp hz with hz | hz
        · subst hz; omega
        · exact h.1 z hz
      simp only [insertDesc, if_neg hc]
      exact List.Pairwise.cons hall (ih h.2)

lemma perm_insertDesc (x : TagInfo) (l : List TagInfo) :
    (insertDesc x l).Perm (x :: l) := by
  induction l with
  | nil => simp [insertDesc]
  | cons y ys ih =>
    by_cases h : y.updated < x.updated
    · simp [insertDesc, h]
    · simp only [insertDesc, if_neg h]
      exact (ih.cons y).trans (List.Perm.swap x y ys)

lemma sortByUpdatedDesc_pairwise (l : List TagInfo) :
    (sortByUpdatedDesc l).Pairwise (fun a b => b.updated ≤ a.updated) := by
  induction l with
  | nil => simp [sortByUpdatedDesc]
  | cons x xs ih => exact pairwise_insertDesc x _ ih

lemma sortByUpdatedDesc_perm (l : List TagInfo) : (sortByUpdatedDesc l).Perm l := by
  induction l with
  | nil => simp [sortByUpdatedDesc]
  | cons x xs ih =>
    exact (perm_insertDesc x (sortByUpdatedDesc xs)).trans (ih.cons x)

lemma Match_eq_specKeep (f : Filter) (tag : String) : f.Match tag = specKeep f tag := by
  unfold Filter.Match specKeep
  by_cases hex : f.Exclude.any (fun re => re tag)
  · simp [hex]
  · by_cases hinc : f.Include.isEmpty <;> simp [hex, hinc]

/-- C3: FilterTags equals the spec pipeline: it returns exactly the tags
not matching any exclude regex that match at least one include regex (all
such tags when the include list is empty), sorted by updated-at
descending, truncated to the first N when N > 0; a tag matching both an
exclude and an include regex is dropped, and the output length never
exceeds N when N > 0. -/
theorem C3_FilterTags_confirmed (f : Filter) (tags : List TagInfo) :
    f.FilterTags tags = filterTagsSpec f tags ∧
    (∀ tag, f.Match tag = specKeep f tag) ∧
    (∀ tag, f.Exclude.any (fun re => re tag) = true → f.Match tag = false) ∧
    (sortByUpdatedDesc (tags.filter (fun t => f.Match t.name))).Pairwise
      (fun a b => b.updated ≤ a.updated) ∧
    (sortByUpdatedDesc (tags.filter (fun t => f.Match t.name))).Perm
      (tags.filter (fun t => f.Match t.name)) ∧
    (0 < f.Latest → ((f.FilterTags tags).length : Int) ≤ f.Latest) := by
  have hfil : tags.filter (fun t => f.Match t.name) =
      tags.filter (fun t => specKeep f t.name) :=
    List.filter_congr (fun t _ => by rw [Match_eq_specKeep])
  refine ⟨?_, fun tag => Match_eq_specKeep f tag, ?_, ?_, ?_, ?_⟩
  · simp only [Filter.FilterTags, filterTagsSpec, hfil]
    by_cases h1 : 0 < f.Latest
    · by_cases h2 : f.Latest <
          ((sortByUpdatedDesc (tags.filter fun t => specKeep f t.name)).length : Int)
      · rw [if_pos (And.intro h1 h2), if_pos h1]
      · rw [if_neg (fun hc => h2 hc.2), if_pos h1, List.take_of_length_le (by omega)]
    · rw [if_neg (fun hc => h1 hc.1), if_neg h1]
  · intro tag hex
    simp [Filter.Match, hex]
  · exact sortByUpdatedDesc_pairwise _
  · exact sortByUpdatedDesc_perm _
  · intro h1
    simp only [Filter.FilterTags]
    by_cases h2 : f.Latest <
        ((sortByUpdatedDesc (tags.filter fun t => f.Match t.name)).length : Int)
    · rw [if_pos (And.intro h1 h2)]
      simp only [List.length_map, List.length_take]
      omega
    · rw [if_neg (fun hc => h2 hc.2)]
      simp only [List.length_map]
      omega

/-- C3 witness: the theorem applied at a concrete filter and tag list;
the tag v2 matches both an include and the exclude regex and is dropped,
and the output is within the latest-1 bound. -/
theorem C3_FilterTags_confirmed_witness :
    witnessFilter.FilterTags witnessTags = ["v1"] ∧
    witnessFilter.FilterTags witnessTags = filterTagsSpec witnessFilter witnessTags ∧
    ((witnessFilter.FilterTags witnessTags).length : Int) ≤ witnessFilter.Latest :=
  ⟨rfl, (C3_FilterTags_confirmed witnessFilter witnessTags).1,
   (C3_FilterTags_confirmed witnessFilter witnessTags).2.2.2.2.2 (by decide)⟩

/-- C1: for every manifest successfully fetched by GetManifest, the Raw
field is exactly the response body, and the PutManifest request built from
that manifest carries exactly those bytes as its body with Content-Type
equal to the manifest media type; hence any content-digest function agrees
on the pushed body and the fetched body. -/
theorem C1_manifest_raw_roundtrip (parse : List Nat → Option ParsedManifest)
    (resp : ManifestResponse) (m : Manifest) (repository reference : String)
    (h : GetManifest parse resp = .ok m) :
    m.Raw = resp.body ∧
    (PutManifestRequest repository reference m).body = resp.body ∧
    (PutManifestRequest repository reference m).contentType = m.mediaType ∧
    ∀ digestFn : List Nat → String,
      digestFn (PutManifestRequest repository reference m).body = digestFn resp.body := by
  by_cases hs : resp.status ≠ 200
  · simp [GetManifest, hs] at h
  · simp only [GetManifest, hs, if_false] at h
    cases hp : parse resp.body with
    | none => rw [hp] at h; cases h
    | some p =>
      rw [hp] at h
      cases h
      exact ⟨rfl, rfl, rfl, fun digestFn => rfl⟩

/-- C1 witness: the round-trip theorem applied at the concrete response. -/
theorem C1_manifest_raw_roundtrip_witness :
    GetManifest witnessParse witnessManifestResp = Except.ok witnessManifest ∧
    witnessManifest.Raw = witnessManifestResp.body ∧
    (PutManifestRequest "mirror/nginx" "1.25.0" witnessManifest).body =
      witnessManifestResp.body ∧
    (PutManifestRequest "mirror/nginx" "1.25.0" witnessManifest).contentType =
      witnessManifest.mediaType := by
  have h : GetManifest witnessParse witnessManifestResp = Except.ok witnessManifest := rfl
  have hc := C1_manifest_raw_roundtrip witnessParse witnessManifestResp witnessManifest
    "mirror/nginx" "1.25.0" h
  exact ⟨h, hc.1, hc.2.1, hc.2.2.1⟩

lemma initiateUploadResult_ok (b : String) (r : BlobHttpResponse) (u : String)
    (h : initiateUploadResult b r = Except.ok u) :
    r.status = 202 ∧ r.location ≠ "" ∧ u = resolveLocation b r.location := by
  unfold initiateUploadResult at h
  by_cases h1 : r.status = 201
  · rw [if_pos h1] at h; cases h
  · rw [if_neg h1] at h
    by_cases h2 : r.status ≠ 202
    · rw [if_pos h2] at h; cases h
    · rw [if_neg h2] at h
      by_cases h3 : r.location = ""
      · rw [if_pos h3] at h; cases h
      · rw [if_neg h3] at h
        injection h with h
        exact ⟨by omega, h3, h.symm⟩

lemma uploadContentResult_ok (b : String) (r : BlobHttpResponse) (u : String)
    (h : uploadContentResult b r = Except.ok u) :
    r.status = 202 ∧ r.location ≠ "" ∧ u = resolveLocation b r.location := by
  unfold uploadContentResult at h
  by_cases h2 : r.status ≠ 202
  · rw [if_pos h2] at h; cases h
  · rw [if_neg h2] at h
    by_cases h3 : r.location = ""
    · rw [if_pos h3] at h; cases h
    · rw [if_neg h3] at h
      injection h with h
      exact ⟨by omega, h3, h.symm⟩

lemma completeUploadResult_ok_iff (r : BlobHttpResponse) :
    completeUploadResult r = Except.ok () ↔ r.status = 201 := by
  unfold completeUploadResult
  by_cases h : r.status ≠ 201
  · rw [if_pos h]
    exact ⟨fun hh => (by cases hh), fun hh => absurd hh h⟩
  · rw [if_neg h]
    exact ⟨fun _ => (by omega), fun _ => rfl⟩

/-- C9: PutBlob performs the three-step monolithic upload. The trace
starts with a POST to the blobs/uploads endpoint of the repository; the
second request is a PATCH carrying the bytes to the Location of the POST
response resolved against the base URL; the third is a PUT with the digest
query and zero content to the resolved Location of the PATCH response;
relative Locations are prefixed with the base URL and absolute ones used
as-is; and the outcome is ok exactly when the three steps receive statuses
202, 202 and 201. -/
theorem C9_PutBlob_confirmed (baseURL repository digest : String) (size : Nat)
    (serve : BlobRequest → BlobHttpResponse) :
    (putBlobResult baseURL repository digest size serve = Except.ok () ↔
      (putBlobTrace baseURL repository digest size serve).map (fun p => p.2.status) =
        [202, 202, 201]) ∧
    ((putBlobTrace baseURL repository digest size serve).map (fun p => p.1.method) =
      ["POST", "PATCH", "PUT"].take
        (putBlobTrace baseURL repository digest size serve).length) ∧
    (((putBlobTrace baseURL repository digest size serve).map (fun p => p.1.url)).get? 0 =
      some (baseURL ++ initiatePath repository digest)) ∧
    (∃ q, initiatePath repository digest =
      "/v2/" ++ repository ++ "/blobs/uploads/" ++ q) ∧
    (∀ p1 p2, (putBlobTrace baseURL repository digest size serve).get? 0 = some p1 →
      (putBlobTrace baseURL repository digest size serve).get? 1 = some p2 →
      p2.1.method = "PATCH" ∧ p2.1.url = resolveLocation baseURL p1.2.location ∧
      p2.1.contentLength = size) ∧
    (∀ p2 p3, (putBlobTrace baseURL repository digest size serve).get? 1 = some p2 →
      (putBlobTrace baseURL repository digest size serve).get? 2 = some p3 →
      p3.1.method = "PUT" ∧
      p3.1.url = setDigestQuery (resolveLocation baseURL p2.2.location) digest ∧
      p3.1.contentLength = 0) ∧
    (∀ loc, (strHasPre loc "http" = true → resolveLocation baseURL loc = loc) ∧
      (strHasPre loc "http" = false → resolveLocation baseURL loc = baseURL ++ loc)) := by
  have hresolve : ∀ loc,
      (strHasPre loc "http" = true → resolveLocation baseURL loc = loc) ∧
      (strHasPre loc "http" = false → resolveLocation baseURL loc = baseURL ++ loc) := by
    intro loc
    refine ⟨fun h => ?_, fun h => ?_⟩
    · simp [resolveLocation, h]
    · simp [resolveLocation, h]
  have hsuffix : ∃ q, initiatePath repository digest =
      "/v2/" ++ repository ++ "/blobs/uploads/" ++ q := ⟨_, rfl⟩
  cases h1 : initiateUploadResult baseURL
      (serve ⟨"POST", baseURL ++ initiatePath repository digest, 0⟩) with
  | error e1 =>
    simp only [putBlobResult, putBlobTrace, putBlob, h1]
    refine ⟨by simp, by simp, by simp, hsuffix, ?_, ?_, hresolve⟩
    · intro p1 p2 hp1 hp2; simp at hp2
    · intro p2 p3 hp2 hp3; simp at hp2
  | ok u =>
    obtain ⟨hs1, hl1, hu⟩ := initiateUploadResult_ok baseURL _ u h1
    cases h2 : uploadContentResult baseURL (serve ⟨"PATCH", u, size⟩) with
    | error e2 =>
      simp only [putBlobResult, putBlobTrace, putBlob, h1, h2]
      refine ⟨by simp, by simp, by simp, hsuffix, ?_, ?_, hresolve⟩
      · intro p1 p2 hp1 hp2
        simp only [List.get?] at hp1 hp2
        cases hp1; cases hp2
        exact ⟨rfl, hu, rfl⟩
      · intro p2 p3 hp2 hp3; simp at hp3
    | ok v =>
      obtain ⟨hs2, hl2, hv⟩ := uploadContentResult_ok baseURL _ v h2
      cases h3 : completeUploadResult (serve ⟨"PUT", setDigestQuery v digest, 0⟩) with
      | error e3 =>
        have hs3 : (serve ⟨"PUT", setDigestQuery v digest, 0⟩).status ≠ 201 := by
          intro hst
          rw [(completeUploadResult_ok_iff _).mpr hst] at h3
          cases h3
        simp only [putBlobResult, putBlobTrace, putBlob, h1, h2, h3]
        refine ⟨?_, by simp, by simp, hsuffix, ?_, ?_, hresolve⟩
        · simp [hs3]
        · intro p1 p2 hp1 hp2
          simp only [List.get?] at hp1 hp2
          cases hp1; cases hp2
          exact ⟨rfl, hu, rfl⟩
        · intro p2 p3 hp2 hp3
          simp only [List.get?] at hp2 hp3
          cases hp2; cases hp3
          exact ⟨rfl, by rw [hv], rfl⟩
      | ok uv =>
        cases uv
        have hs3 : (serve ⟨"PUT", setDigestQuery v digest, 0⟩).status = 201 :=
          (completeUploadResult_ok_iff _).mp h3
        simp only [putBlobResult, putBlobTrace, putBlob, h1, h2, h3]
        refine ⟨?_, by simp, by simp, hsuffix, ?_, ?_, hresolve⟩
        · simp [hs1, hs2, hs3]
        · intro p1 p2 hp1 hp2
          simp only [List.get?] at hp1 hp2
          cases hp1; cases hp2
          exact ⟨rfl, hu, rfl⟩
        · intro p2 p3 hp2 hp3
          simp only [List.get?] at hp2 hp3
          cases hp2; cases hp3
          exact ⟨rfl, by rw [hv], rfl⟩

/-! ## C10, C2, C6 theorems -/

/-- C10: the blob sync task panics on short digests. BlobSyncTask.Execute
slices t.Digest[:12] before copying (and in the already-exists branch),
and BlobSyncTask.Description slices it unconditionally; for a digest
shorter than 12 characters the Go runtime panics with slice bounds out of
range, contradicting the claim that the engine never panics. -/
theorem C10_blob_task_panics_on_short_digest :
    blobTaskExecute ⟨fun _ => Except.ok false, fun _ => none⟩ "" =
      Except.error GoPanic.sliceOutOfRange ∧
    blobTaskExecute ⟨fun _ => Except.ok true, fun _ => none⟩ "sha256:ab" =
      Except.error GoPanic.sliceOutOfRange ∧
    blobTaskDescription "" = Except.error GoPanic.sliceOutOfRange := by
  exact ⟨rfl, rfl, rfl⟩

lemma runPool_ok (w : BlobTaskWorld) :
    ∀ (ds : List String) (results : List (String × Option GoErr)),
      runPool w ds = .ok results →
      results.map Prod.fst = ds ∧ ∀ r ∈ results, blobTaskExecute w r.1 = .ok r.2 := by
  intro ds
  induction ds with
  | nil =>
    intro results h
    cases h
    exact ⟨rfl, fun r hr => absurd hr (List.not_mem_nil r)⟩
  | cons d ds ih =>
    intro results h
    unfold runPool at h
    cases hx : blobTaskExecute w d with
    | error p => rw [hx] at h; cases h
    | ok r =>
      rw [hx] at h
      cases hp : runPool w ds with
      | error p => rw [hp] at h; cases h
      | ok rs =>
        rw [hp] at h
        cases h
        obtain ⟨h1, h2⟩ := ih rs hp
        refine ⟨by simp [h1], ?_⟩
        intro q hq
        rcases List.mem_cons.mp hq with hq | hq
        · subst hq; exact hx
        · exact h2 q hq

lemma schedSyncBlobs_length (w : SchedWorld) (tag : String) :
    ∀ (ds : List Descriptor) (c c1 : Counters) (evs : List SchedEvent),
      schedSyncBlobs w tag c ds = .ok (c1, evs) → evs.length = ds.length := by
  intro ds
  induction ds with
  | nil =>
    intro c c1 evs h
    cases h
    rfl
  | cons d ds ih =>
    intro c c1 evs h
    unfold schedSyncBlobs at h
    cases hb : schedSyncBlob w tag c d with
    | error p => rw [hb] at h; cases h
    | ok p =>
      obtain ⟨ca, ev⟩ := p
      rw [hb] at h
      dsimp only at h
      cases hr : schedSyncBlobs w tag ca ds with
      | error p => rw [hr] at h; cases h
      | ok q =>
        obtain ⟨cb, evs2⟩ := q
        rw [hr] at h
        cases h
        simp only [List.length_cons]
        exact congrArg (fun n => n + 1) (ih _ _ _ hr)

/-- C2 counterexample: on the scheduler path, with a manifest referencing
a config blob (copied successfully) and a layer blob whose copy fails,
runTask increments failedBlobs for the layer and still issues PutManifest
for the tag, refuting the claim that a manifest referencing a blob whose
copy failed is never pushed. -/
theorem C2_counterexample :
    schedRunTask
      ⟨fun _ => Except.ok false,
       fun d => if d = "sha256:bbbbbbbbbbbb" then some (GoErr.plain "connection reset") else none,
       fun _ => none⟩
      [{ repoName := "nginx", tag := "1.25.0",
         manifest :=
           { schemaVersion := 2,
             mediaType := "application/vnd.docker.distribution.manifest.v2+json",
             config := { mediaType := "application/vnd.docker.container.image.v1+json",
                         size := 7, digest := "sha256:cfgcfgcfgcfg" },
             layers := [{ mediaType := "application/vnd.docker.image.rootfs.diff.tar.gzip",
                          size := 100, digest := "sha256:bbbbbbbbbbbb" }],
             manifests := [], Raw := [1], ContentDigest := "sha256:mmm" },
         sourceRepo := "library/nginx", targetRepo := "mirror/nginx" }] =
    Except.ok
      ({ totalBlobs := 2, syncedBlobs := 1, skippedBlobs := 0, failedBlobs := 1,
         syncedSize := 7 },
       [SchedEvent.blobCopied "1.25.0" "sha256:cfgcfgcfgcfg",
        SchedEvent.blobCopyFailed "1.25.0" "sha256:bbbbbbbbbbbb",
        SchedEvent.manifestPut "1.25.0" true]) := by
  decide

/-- C2 amended: on the engine path SyncSingleManifest the discipline
holds: the manifest is pushed only when every submitted blob task
succeeded (each blob either already existed on the target or was copied),
with the push as the last event; a single failed task makes pool Wait
return an error and no push happens. On the scheduler path runTask only
the per-tag ordering holds: the PutManifest for a tag is issued after all
of its blob attempts, but it is issued even when some blob copies
failed. -/
theorem C2_push_manifest_last_amended :
    (∀ (w : BlobTaskWorld) (putOutcome : Option GoErr) (m : Manifest)
        (targetRepo reference : String) (evs : List EngineEvent) (err : Option GoErr),
      syncSingleManifest w putOutcome m targetRepo reference = .ok (evs, err) →
      EngineEvent.manifestPut targetRepo reference ∈ evs →
      (∀ d ∈ m.GetAllBlobs, EngineEvent.blobTask d.digest false ∈ evs) ∧
      (∀ dg, EngineEvent.blobTask dg true ∉ evs) ∧
      (∃ pre, evs = pre ++ [EngineEvent.manifestPut targetRepo reference])) ∧
    (∀ (w : BlobTaskWorld) (dg : String), blobTaskExecute w dg = .ok none →
      w.existsOnTarget dg = .ok true ∨
      (w.existsOnTarget dg = .ok false ∧ w.copyOutcome dg = none)) ∧
    (∀ (w : SchedWorld) (c c1 : Counters) (rt : RepoTagPlan) (evs : List SchedEvent),
      schedSyncTag w c rt = .ok (c1, evs) →
      ∃ pre, evs = pre ++ [SchedEvent.manifestPut rt.tag (w.putOutcome rt.tag).isNone] ∧
        pre.length = rt.manifest.GetAllBlobs.length) := by
  refine ⟨?_, ?_, ?_⟩
  · intro w putOutcome m targetRepo reference evs err h hmem
    unfold syncSingleManifest at h
    cases hp : runPool w (m.GetAllBlobs.map fun d => d.digest) with
    | error p => rw [hp] at h; cases h
    | ok results =>
      rw [hp] at h
      dsimp only at h
      by_cases hany : results.any (fun r => r.2.isSome) = true
      · rw [if_pos hany] at h
        injection h with h
        injection h with h1 h2
        rw [← h1] at hmem
        obtain ⟨r, _, hr⟩ := List.mem_map.mp hmem
        cases hr
      · rw [if_neg hany] at h
        have hnone : ∀ r ∈ results, r.2 = none := by
          intro r hr
          by_contra hne
          exact hany (List.any_eq_true.mpr ⟨r, hr, Option.ne_none_iff_isSome.mp hne⟩)
        obtain ⟨hmap, _⟩ := runPool_ok w _ results hp
        have hevs : evs = results.map (fun r => EngineEvent.blobTask r.1 r.2.isSome) ++
            [EngineEvent.manifestPut targetRepo reference] := by
          cases hpo : putOutcome with
          | some e =>
            rw [hpo] at h
            dsimp only at h
            injection h with h
            injection h with h1 h2
            exact h1.symm
          | none =>
            rw [hpo] at h
            dsimp only at h
            injection h with h
            injection h with h1 h2
            exact h1.symm
        refine ⟨?_, ?_, ⟨_, hevs⟩⟩
        · intro d hd
          have hdig : d.digest ∈ results.map Prod.fst := by
            rw [hmap]
            exact List.mem_map.mpr ⟨d, hd, rfl⟩
          obtain ⟨r, hr, hrd⟩ := List.mem_map.mp hdig
          rw [hevs]
          refine List.mem_append_left _ ?_
          have : EngineEvent.blobTask r.1 r.2.isSome = EngineEvent.blobTask d.digest false := by
            rw [hrd, hnone r hr]
            rfl
          exact this ▸ List.mem_map.mpr ⟨r, hr, rfl⟩
        · intro dg hdg
          rw [hevs] at hdg
          rcases List.mem_append.mp hdg with hdg | hdg
          · obtain ⟨r, hr, hrd⟩ := List.mem_map.mp hdg
            rw [EngineEvent.blobTask.injEq, hnone r hr] at hrd
            simp at hrd
          · cases List.mem_singleton.mp hdg
  · intro w dg h
    unfold blobTaskExecute at h
    cases hex : w.existsOnTarget dg with
    | error e =>
      rw [hex] at h
      injection h with h
      cases h
    | ok b =>
      rw [hex] at h
      cases b
      · dsimp only at h
        cases hsl : goSliceTo 12 dg with
        | error p => rw [hsl] at h; cases h
        | ok short =>
          rw [hsl] at h
          dsimp only at h
          cases hc : w.copyOutcome dg with
          | some e =>
            rw [hc] at h
            injection h with h
            cases h
          | none => exact Or.inr ⟨rfl, rfl⟩
      · dsimp only at h
        cases hsl : goSliceTo 12 dg with
        | error p => rw [hsl] at h; cases h
        | ok short => exact Or.inl rfl
  · intro w c c1 rt evs h
    unfold schedSyncTag at h
    cases hb : schedSyncBlobs w rt.tag c rt.manifest.GetAllBlobs with
    | error p => rw [hb] at h; cases h
    | ok p =>
      obtain ⟨c2, evs2⟩ := p
      rw [hb] at h
      dsimp only at h
      injection h with h
      injection h with h1 h2
      exact ⟨evs2, h2.symm, schedSyncBlobs_length w rt.tag _ c c2 evs2 hb⟩

/-- C2 witness: the amended theorem applied on the engine path at a
concrete run in which the single layer blob is confirmed present and the
manifest push is the final event. -/
theorem C2_push_manifest_last_amended_witness :
    EngineEvent.blobTask "sha256:bbbbbbbbbbbb" false ∈
      [EngineEvent.blobTask "sha256:bbbbbbbbbbbb" false,
       EngineEvent.manifestPut "mirror/nginx" "1.25.0"] ∧
    engineWorldOk.existsOnTarget "sha256:bbbbbbbbbbbb" = Except.ok true := by
  have ha := (C2_push_manifest_last_amended).1 engineWorldOk none engineManifestB
    "mirror/nginx" "1.25.0"
    [EngineEvent.blobTask "sha256:bbbbbbbbbbbb" false,
     EngineEvent.manifestPut "mirror/nginx" "1.25.0"] none (by decide) (by decide)
  have hb := (C2_push_manifest_last_amended).2.1 engineWorldOk "sha256:bbbbbbbbbbbb"
    (by decide)
  refine ⟨ha.1 { mediaType := "application/vnd.docker.image.rootfs.diff.tar.gzip",
                 size := 5, digest := "sha256:bbbbbbbbbbbb" } (by decide), ?_⟩
  rcases hb with hb | ⟨hb, _⟩
  · exact hb
  · exact absurd hb (by decide)

/-- C6 counterexample: two planned tags share one layer digest; the
planning pass sets execution.totalBlobs to 2 (one per occurrence), while
the number of distinct digests in the plan is 1, refuting the claim that
descriptors are deduplicated by digest across the plan. -/
theorem C6_counterexample :
    schedRunTask c6World [c6Plan1, c6Plan2] = Except.ok
      ({ totalBlobs := 2, syncedBlobs := 2, skippedBlobs := 2, failedBlobs := 0,
         syncedSize := 0 },
       [SchedEvent.blobSkipped "1.0" "sha256:aaaaaaaaaaaa",
        SchedEvent.manifestPut "1.0" true,
        SchedEvent.blobSkipped "2.0" "sha256:aaaaaaaaaaaa",
        SchedEvent.manifestPut "2.0" true]) ∧
    planTotalBlobs [c6Plan1, c6Plan2] = 2 ∧
    planDistinctDigests [c6Plan1, c6Plan2] = 1 := by
  refine ⟨by decide, by decide, by decide⟩

lemma schedSyncBlob_totalBlobs (w : SchedWorld) (tag : String) (c : Counters)
    (d : Descriptor) (c1 : Counters) (ev : SchedEvent)
    (h : schedSyncBlob w tag c d = .ok (c1, ev)) : c1.totalBlobs = c.totalBlobs := by
  unfold schedSyncBlob at h
  cases hex : w.existsOnTarget d.digest with
  | error e =>
    rw [hex] at h
    injection h with h
    injection h with h1 h2
    rw [← h1]
  | ok b =>
    rw [hex] at h
    cases b
    · dsimp only at h
      cases hc : w.copyOutcome d.digest with
      | some e =>
        rw [hc] at h
        dsimp only at h
        cases hsl : goSliceTo 12 d.digest with
        | error p => rw [hsl] at h; cases h
        | ok short =>
          rw [hsl] at h
          injection h with h
          injection h with h1 h2
          rw [← h1]
      | none =>
        rw [hc] at h
        injection h with h
        injection h with h1 h2
        rw [← h1]
    · dsimp only at h
      injection h with h
      injection h with h1 h2
      rw [← h1]

lemma schedSyncBlobs_totalBlobs (w : SchedWorld) (tag : String) :
    ∀ (ds : List Descriptor) (c c1 : Counters) (evs : List SchedEvent),
      schedSyncBlobs w tag c ds = .ok (c1, evs) → c1.totalBlobs = c.totalBlobs := by
  intro ds
  induction ds with
  | nil =>
    intro c c1 evs h
    cases h
    rfl
  | cons d ds ih =>
    intro c c1 evs h
    unfold schedSyncBlobs at h
    cases hb : schedSyncBlob w tag c d with
    | error p => rw [hb] at h; cases h
    | ok p =>
      obtain ⟨ca, ev⟩ := p
      rw [hb] at h
      dsimp only at h
      cases hr : schedSyncBlobs w tag ca ds with
      | error p => rw [hr] at h; cases h
      | ok q =>
        obtain ⟨cb, evs2⟩ := q
        rw [hr] at h
        cases h
        rw [ih _ _ _ hr, schedSyncBlob_totalBlobs w tag c d ca ev hb]

lemma schedSyncTag_totalBlobs (w : SchedWorld) (c : Counters) (rt : RepoTagPlan)
    (c1 : Counters) (evs : List SchedEvent)
    (h : schedSyncTag w c rt = .ok (c1, evs)) : c1.totalBlobs = c.totalBlobs := by
  unfold schedSyncTag at h
  cases hb : schedSyncBlobs w rt.tag c rt.manifest.GetAllBlobs with
  | error p => rw [hb] at h; cases h
  | ok p =>
    obtain ⟨c2, evs2⟩ := p
    rw [hb] at h
    dsimp only at h
    injection h with h
    injection h with h1 h2
    rw [← h1]
    exact schedSyncBlobs_totalBlobs w rt.tag _ c c2 evs2 hb

lemma schedRunTags_totalBlobs (w : SchedWorld) :
    ∀ (plans : List RepoTagPlan) (c c1 : Counters) (evs : List SchedEvent),
      schedRunTags w c plans = .ok (c1, evs) → c1.totalBlobs = c.totalBlobs := by
  intro plans
  induction plans with
  | nil =>
    intro c c1 evs h
    cases h
    rfl
  | cons rt rts ih =>
    intro c c1 evs h
    unfold schedRunTags at h
    cases hb : schedSyncTag w c rt with
    | error p => rw [hb] at h; cases h
    | ok p =>
      obtain ⟨ca, evsa⟩ := p
      rw [hb] at h
      dsimp only at h
      cases hr : schedRunTags w ca rts with
      | error p => rw [hr] at h; cases h
      | ok q =>
        obtain ⟨cb, evsb⟩ := q
        rw [hr] at h
        cases h
        rw [ih _ _ _ hr, schedSyncTag_totalBlobs w c rt ca evsa hb]

/-- C6 amended: the planning pass does not deduplicate; for every
completed run, the recorded totalBlobs equals the sum over the plan of the
number of config-plus-layer descriptors per tag, counting a digest once
per occurrence, and the number of distinct digests is only a lower
bound. -/
theorem C6_totalBlobs_amended (w : SchedWorld) (plans : List RepoTagPlan)
    (c : Counters) (evs : List SchedEvent)
    (h : schedRunTask w plans = .ok (c, evs)) :
    c.totalBlobs = planTotalBlobs plans ∧
    planDistinctDigests plans ≤ planTotalBlobs plans := by
  constructor
  · exact schedRunTags_totalBlobs w plans _ c evs h
  · unfold planDistinctDigests planTotalBlobs
    calc ((plans.map (fun rt => rt.manifest.GetAllBlobs.map
            (fun d => d.digest))).flatten).dedup.length
        ≤ ((plans.map (fun rt => rt.manifest.GetAllBlobs.map
            (fun d => d.digest))).flatten).length :=
          (List.dedup_sublist _).length_le
      _ = (plans.map (fun rt => rt.manifest.GetAllBlobs.length)).sum := by
          rw [List.length_flatten, List.map_map]
          exact congrArg List.sum (List.map_congr_left (fun rt _ => by simp))

/-- C6 witness: the amended theorem applied at the concrete two-tag plan
sharing one digest. -/
theorem C6_totalBlobs_amended_witness :
    ({ totalBlobs := 2, syncedBlobs := 2, skippedBlobs := 2, failedBlobs := 0,
       syncedSize := 0 } : Counters).totalBlobs = planTotalBlobs [c6Plan1, c6Plan2] ∧
    planDistinctDigests [c6Plan1, c6Plan2] ≤ planTotalBlobs [c6Plan1, c6Plan2] :=
  C6_totalBlobs_amended c6World [c6Plan1, c6Plan2] _
    [SchedEvent.blobSkipped "1.0" "sha256:aaaaaaaaaaaa",
     SchedEvent.manifestPut "1.0" true,
     SchedEvent.blobSkipped "2.0" "sha256:aaaaaaaaaaaa",
     SchedEvent.manifestPut "2.0" true] (by decide)

/-! ## C7 and C8 theorems -/

/-- C7: cancellation is recorded as failed, not canceled. The ExecuteTask
goroutine maps every runTask error, including the context-cancellation
error produced when CancelTask flips the cancel handle, to status failed;
no code path assigns the declared models.StatusCanceled; and the
notification gate fires for the failed status even under the
failed-only condition, so a failure notification is sent. -/
theorem C7_cancellation_status_code_bug :
    (∀ e : GoErr, finishExecutionStatus (some e) = ExecutionStatus.failed) ∧
    finishExecutionStatus (some { msg := "context canceled", isCtxCanceled := true }) =
      ExecutionStatus.failed ∧
    ExecutionStatus.failed ≠ ExecutionStatus.canceled ∧
    sendNotificationDecision true "failed"
      (finishExecutionStatus
        (some { msg := "context canceled", isCtxCanceled := true })) [1] = true := by
  exact ⟨fun e => rfl, rfl, by decide, by decide⟩

lemma runningCountL_cons (y : ExecRecord) (l : List ExecRecord) (t : Nat) :
    runningCountL (y :: l) t = (if runPred t y then 1 else 0) + runningCountL l t := by
  unfold runningCountL
  rw [List.filter_cons]
  by_cases h : runPred t y
  · simp [h, Nat.add_comm]
  · simp [h]

lemma runningCountL_append (l1 l2 : List ExecRecord) (t : Nat) :
    runningCountL (l1 ++ l2) t = runningCountL l1 t + runningCountL l2 t := by
  simp [runningCountL, List.filter_append]

lemma count_pos_of_mem {l : List ExecRecord} {e : ExecRecord} {t : Nat}
    (hmem : e ∈ l) (hp : runPred t e = true) : 1 ≤ runningCountL l t := by
  have hf : e ∈ l.filter (runPred t) := List.mem_filter.mpr ⟨hmem, hp⟩
  exact List.length_pos.mpr (List.ne_nil_of_mem hf)

lemma runningCountL_setExecStatus (st : ExecutionStatus) (hst : st ≠ .running) (t : Nat) :
    ∀ (l : List ExecRecord) (i : Nat) (e : ExecRecord), l.get? i = some e →
      runningCountL (setExecStatus l i st) t =
        runningCountL l t - (if runPred t e then 1 else 0) := by
  intro l
  induction l with
  | nil => intro i e hg; cases hg
  | cons x xs ih =>
    intro i e hg
    cases i with
    | zero =>
      have hx : x = e := Option.some.inj hg
      subst hx
      rw [show setExecStatus (x :: xs) 0 st = { x with status := st } :: xs from rfl]
      rw [runningCountL_cons, runningCountL_cons]
      have hpred : runPred t { x with status := st } = false := by
        simp [runPred]
        intro _
        exact hst
      rw [hpred]
      simp only [Bool.false_eq_true, if_false]
      by_cases hp : runPred t x
      · rw [if_pos hp]
        omega
      · rw [if_neg hp]
        omega
    | succ i =>
      have hg2 : xs.get? i = some e := hg
      rw [show setExecStatus (x :: xs) (i + 1) st = x :: setExecStatus xs i st from rfl]
      rw [runningCountL_cons, runningCountL_cons, ih i e hg2]
      by_cases hp : runPred t e
      · rw [if_pos hp]
        have hge : 1 ≤ runningCountL xs t := count_pos_of_mem (List.get?_mem hg2) hp
        by_cases hx : runPred t x
        · rw [if_pos hx]; omega
        · rw [if_neg hx]; omega
      · rw [if_neg hp]
        omega

lemma schedInv_init : SchedInv ⟨[], []⟩ := by
  intro t
  have hz : runningCount (⟨[], []⟩ : SchedState) t = 0 := rfl
  exact ⟨by omega, fun h => by omega⟩

lemma schedInv_exec (s : SchedState) (t : Nat) (h : SchedInv s) :
    SchedInv (execTaskStep s t).1 := by
  unfold execTaskStep
  by_cases hm : t ∈ s.running
  · rw [if_pos hm]
    exact h
  · rw [if_neg hm]
    intro u
    have hcnt : runningCount s t = 0 := by
      have ht := h t
      rcases Nat.lt_or_ge (runningCount s t) 1 with hlt | hge
      · omega
      · exact absurd (ht.2 (by omega)) hm
    by_cases hu : u = t
    · subst hu
      have hone : runningCountL [({ taskId := u, status := .running } : ExecRecord)] u = 1 := by
        rw [runningCountL_cons]
        have hp : runPred u ({ taskId := u, status := .running } : ExecRecord) = true := by
          simp [runPred]
        rw [hp]
        rfl
      constructor
      · show runningCountL (s.executions ++ [{ taskId := u, status := .running }]) u ≤ 1
        rw [runningCountL_append, hone]
        have hz : runningCountL s.executions u = 0 := hcnt
        omega
      · intro _
        exact List.mem_cons_self u s.running
    · have hzero : runningCountL [({ taskId := t, status := .running } : ExecRecord)] u = 0 := by
        rw [runningCountL_cons]
        have hp : runPred u ({ taskId := t, status := .running } : ExecRecord) = false := by
          simp [runPred]
          intro hh
          exact absurd hh.symm hu
        rw [hp]
        rfl
      constructor
      · show runningCountL (s.executions ++ [{ taskId := t, status := .running }]) u ≤ 1
        rw [runningCountL_append, hzero]
        have := (h u).1
        have hsame : runningCount s u = runningCountL s.executions u := rfl
        omega
      · intro h1
        have heq : runningCountL (s.executions ++
            [{ taskId := t, status := .running }]) u = 1 := h1
        rw [runningCountL_append, hzero] at heq
        refine List.mem_cons_of_mem t ?_
        apply (h u).2
        show runningCountL s.executions u = 1
        omega

lemma schedInv_finish (s : SchedState) (i : Nat) (ok : Bool) (h : SchedInv s) :
    SchedInv (finishTaskStep s i ok) := by
  unfold finishTaskStep
  cases hg : s.executions.get? i with
  | none => exact h
  | some e =>
    dsimp only
    by_cases hst : e.status = .running
    · rw [if_pos hst]
      intro u
      have hterm : (if ok then ExecutionStatus.success else ExecutionStatus.failed) ≠
          ExecutionStatus.running := by
        cases ok <;> decide
      have hset := runningCountL_setExecStatus _ hterm u s.executions i e hg
      have hsame : runningCount s u = runningCountL s.executions u := rfl
      by_cases hu : u = e.taskId
      · subst hu
        have hp : runPred e.taskId e = true := by
          simp [runPred, hst]
        have hge : 1 ≤ runningCountL s.executions e.taskId :=
          count_pos_of_mem (List.get?_mem hg) hp
        have hle := (h e.taskId).1
        rw [hsame] at hle
        constructor
        · show runningCountL (setExecStatus s.executions i _) e.taskId ≤ 1
          rw [hset, if_pos hp]
          omega
        · intro h1
          exfalso
          have heq : runningCountL (setExecStatus s.executions i _) e.taskId = 1 := h1
          rw [hset, if_pos hp] at heq
          omega
      · have hp : runPred u e = false := by
          simp [runPred]
          intro hh
          exact absurd hh.symm hu
        constructor
        · show runningCountL (setExecStatus s.executions i _) u ≤ 1
          rw [hset, hp]
          simp only [Bool.false_eq_true, if_false]
          have := (h u).1
          rw [hsame] at this
          omega
        · intro h1
          have heq : runningCountL (setExecStatus s.executions i _) u = 1 := h1
          rw [hset, hp] at heq
          simp only [Bool.false_eq_true, if_false] at heq
          have hmem : u ∈ s.running := by
            apply (h u).2
            show runningCountL s.executions u = 1
            omega
          exact (List.mem_erase_of_ne (fun hh => hu hh)).mpr hmem
    · rw [if_neg hst]
      exact h

lemma schedInv_run (acts : List SchedAction)
    (hnc : ∀ a ∈ acts, a.isCancel = false) : SchedInv (schedRun acts) := by
  unfold schedRun
  have main : ∀ (as : List SchedAction) (s : SchedState), SchedInv s →
      (∀ a ∈ as, SchedAction.isCancel a = false) → SchedInv (as.foldl schedStep s) := by
    intro as
    induction as with
    | nil => intro s hs _; exact hs
    | cons a as ih =>
      intro s hs hna
      rw [List.foldl_cons]
      refine ih (schedStep s a) ?_ (fun b hb => hna b (List.mem_cons_of_mem a hb))
      cases a with
      | execTask t => exact schedInv_exec s t hs
      | finishTask i ok => exact schedInv_finish s i ok hs
      | cancelTask t =>
        exact absurd (hna _ (List.mem_cons_self _ _)) (by simp [SchedAction.isCancel])
  exact main acts ⟨[], []⟩ schedInv_init hnc

/-- C8 counterexample: after ExecuteTask 1 and CancelTask 1 (which removes
the running-map entry while the execution record still has status
running), a second ExecuteTask 1 is accepted without a conflict error,
leaving two Executions of rule 1 in status running at the same instant. -/
theorem C8_counterexample :
    runningCount (schedRun [SchedAction.execTask 1, SchedAction.cancelTask 1,
      SchedAction.execTask 1]) 1 = 2 ∧
    (execTaskStep (schedRun [SchedAction.execTask 1, SchedAction.cancelTask 1]) 1).2 =
      none := by
  refine ⟨by decide, by decide⟩

/-- C8 amended: ExecuteTask on a task id present in the running map
returns a conflict error with the state unchanged, so in every action
sequence free of CancelTask calls at most one Execution per rule holds
status running at any instant; CancelTask deletes the running-map entry
before the terminal status is written, which is what breaks the
unrestricted claim. -/
theorem C8_ExecuteTask_conflict_amended :
    (∀ (s : SchedState) (t : Nat), t ∈ s.running →
      execTaskStep s t = (s, some "task is already running")) ∧
    (∀ acts : List SchedAction, (∀ a ∈ acts, a.isCancel = false) →
      ∀ t, runningCount (schedRun acts) t ≤ 1) := by
  constructor
  · intro s t h
    unfold execTaskStep
    rw [if_pos h]
  · intro acts hnc t
    exact (schedInv_run acts hnc t).1

/-- C8 witness: the amended theorem applied at a state with task 1 in
flight, and at the cancel-free action sequence run, finish, run again. -/
theorem C8_ExecuteTask_conflict_amended_witness :
    execTaskStep ⟨[1], [{ taskId := 1, status := .running }]⟩ 1 =
      (⟨[1], [{ taskId := 1, status := .running }]⟩, some "task is already running") ∧
    runningCount (schedRun [SchedAction.execTask 1, SchedAction.finishTask 0 true,
      SchedAction.execTask 1]) 1 ≤ 1 := by
  refine ⟨C8_ExecuteTask_conflict_amended.1 ⟨[1], [{ taskId := 1, status := .running }]⟩ 1
      (by decide),
    C8_ExecuteTask_conflict_amended.2 [SchedAction.execTask 1, SchedAction.finishTask 0 true,
      SchedAction.execTask 1] (by decide) 1⟩

/-- C9 witness: the theorem applied at a concrete server: the upload
succeeds, the relative POST Location is resolved against the base URL and
the absolute PATCH Location is used as-is. -/
theorem C9_PutBlob_confirmed_witness :
    putBlobResult "http://reg.example" "mirror/nginx" "sha256:aaa" 3 witnessServe =
      Except.ok () ∧
    resolveLocation "http://reg.example" "/uploads/1" = "http://reg.example/uploads/1" ∧
    resolveLocation "http://reg.example" "http://reg.example/uploads/2" =
      "http://reg.example/uploads/2" := by
  have h := C9_PutBlob_confirmed "http://reg.example" "mirror/nginx" "sha256:aaa" 3
    witnessServe
  refine ⟨h.1.mpr (by decide), (h.2.2.2.2.2.2 "/uploads/1").2 (by decide),
    (h.2.2.2.2.2.2 "http://reg.example/uploads/2").1 (by decide)⟩

end RegistrySync
